import Mathlib

/-!
Verification of the terminal inline-image protocol encoder (python-imgcat).

The Python sources are shallowly embedded below:
* bytes are `List Nat` (each element a byte value);
* fallible code returns `Except String α`, the `String` being the message of
  the exception that Python would raise;
* functions writing to a file object are modelled as returning the list of
  byte strings passed to the successive `fp.write` calls (a `flush` performs
  no write and is not modelled);
* environment queries (`get_tty_size`, the PIL fallback of
  `get_image_shape`, tmux detection) are passed in as explicit parameters,
  since they only read process-external state.
-/

namespace Imgcat

/-- Byte string of an ASCII Lean string (used for all protocol text). -/
def strBytes (s : String) : List Nat :=
  s.toList.map Char.toNat

instance {ε α : Type} [DecidableEq ε] [DecidableEq α] :
    DecidableEq (Except ε α) := fun a b =>
  match a, b with
  | Except.ok x, Except.ok y =>
      if h : x = y then Decidable.isTrue (by rw [h])
      else Decidable.isFalse (fun hc => h (Except.ok.inj hc))
  | Except.error x, Except.error y =>
      if h : x = y then Decidable.isTrue (by rw [h])
      else Decidable.isFalse (fun hc => h (Except.error.inj hc))
  | Except.ok _, Except.error _ =>
      Decidable.isFalse (fun hc => Except.noConfusion hc)
  | Except.error _, Except.ok _ =>
      Decidable.isFalse (fun hc => Except.noConfusion hc)

/-- Value of a dynamically typed Python variable as used for the `width` /
`height` arguments of `imgcat`: `None`, an `int`, or a `str`. -/
inductive PyVal where
  | none : PyVal
  | int (n : Int) : PyVal
  | str (s : String) : PyVal
deriving DecidableEq

/-- Python `==` between the dynamic values (values of distinct types are
never equal; `None == None` is `True`). -/
def pyEq : PyVal → PyVal → Bool
  | PyVal.none, PyVal.none => true
  | PyVal.int a, PyVal.int b => a = b
  | PyVal.str a, PyVal.str b => a = b
  | _, _ => false

/-- Python truthiness of the dynamic values: `None`, `0` and `''` are falsy,
everything else is truthy. -/
def pyTruthy : PyVal → Bool
  | PyVal.none => false
  | PyVal.int n => n ≠ 0
  | PyVal.str s => s ≠ ""

/-- Python `str()` of the dynamic values. -/
def pyStrOf : PyVal → String
  | PyVal.none => "None"
  | PyVal.int n => toString n
  | PyVal.str s => s

/-- Python truthiness of an `Optional[int]`: `None` and `0` are falsy. -/
def pyTruthyOptInt : Option Int → Bool
  | Option.none => false
  | Option.some n => n ≠ 0

/-! ## Base64 (Python `base64.b64encode` / standard alphabet) -/

/-- Character (byte value) of the standard base64 alphabet for a sextet. -/
def b64Char (n : Nat) : Nat :=
  if n < 26 then 65 + n            -- 'A'..'Z'
  else if n < 52 then 97 + (n - 26) -- 'a'..'z'
  else if n < 62 then 48 + (n - 52) -- '0'..'9'
  else if n = 62 then 43            -- '+'
  else 47                           -- '/'

/-- Sextet value of a standard base64 alphabet byte (inverse of `b64Char`). -/
def b64Val (c : Nat) : Nat :=
  if 65 ≤ c ∧ c ≤ 90 then c - 65
  else if 97 ≤ c ∧ c ≤ 122 then c - 97 + 26
  else if 48 ≤ c ∧ c ≤ 57 then c - 48 + 52
  else if c = 43 then 62
  else 63

/-- Standard base64 encoding of a byte string, with `=` (61) padding,
as performed by Python `base64.b64encode` / `base64.standard_b64encode`. -/
def base64Encode : List Nat → List Nat
  | [] => []
  | [b0] => [b64Char (b0 / 4), b64Char (b0 % 4 * 16), 61, 61]
  | [b0, b1] =>
      [b64Char (b0 / 4), b64Char (b0 % 4 * 16 + b1 / 16),
       b64Char (b1 % 16 * 4), 61]
  | b0 :: b1 :: b2 :: rest =>
      b64Char (b0 / 4) :: b64Char (b0 % 4 * 16 + b1 / 16) ::
      b64Char (b1 % 16 * 4 + b2 / 64) :: b64Char (b2 % 64) ::
      base64Encode rest

/-- Standard base64 decoding (groups of four alphabet bytes, `=` padding),
as performed by Python `base64.b64decode` on well-formed input. -/
def base64Decode : List Nat → List Nat
  | c0 :: c1 :: c2 :: c3 :: rest =>
      if c2 = 61 then [b64Val c0 * 4 + b64Val c1 / 16]
      else if c3 = 61 then
        [b64Val c0 * 4 + b64Val c1 / 16, b64Val c1 % 16 * 16 + b64Val c2 / 4]
      else
        (b64Val c0 * 4 + b64Val c1 / 16) ::
        (b64Val c1 % 16 * 16 + b64Val c2 / 4) ::
        (b64Val c2 % 4 * 64 + b64Val c3) ::
        base64Decode rest
  | _ => []

/-! ## Container sniffer (`imgcat.get_image_shape`) -/

/-- Signed little-endian 16-bit integer of two bytes, as unpacked by
Python `struct.unpack("<h", ...)`. -/
def sle16 (b0 b1 : Nat) : Int :=
  let v : Nat := b0 + 256 * b1
  if v < 32768 then (v : Int) else (v : Int) - 65536

/-- Unsigned big-endian 32-bit integer of four bytes, as unpacked by
Python `struct.unpack(">L", ...)`. -/
def ube32 (b0 b1 b2 b3 : Nat) : Int :=
  (((b0 * 256 + b1) * 256 + b2) * 256 + b3 : Nat)

/-- Model of `_unpack("<hh", buffer, mode='GIF')` in `get_image_shape`:
two signed little-endian 16-bit integers; `struct.error` on any other
buffer length is converted to `ValueError("Invalid GIF file")`. -/
def unpack_hh_le : List Nat → Except String (Int × Int)
  | [b0, b1, b2, b3] => Except.ok (sle16 b0 b1, sle16 b2 b3)
  | _ => Except.error "Invalid GIF file"

/-- Model of `_unpack(">LL", buffer, mode='PNG')` in `get_image_shape`:
two unsigned big-endian 32-bit integers; `struct.error` on any other
buffer length is converted to `ValueError("Invalid PNG file")`. -/
def unpack_LL_be : List Nat → Except String (Int × Int)
  | [b0, b1, b2, b3, b4, b5, b6, b7] =>
      Except.ok (ube32 b0 b1 b2 b3, ube32 b4 b5 b6 b7)
  | _ => Except.error "Invalid PNG file"

/-- The bytes `b'GIF87a'`. -/
def gif87Magic : List Nat := strBytes "GIF87a"

/-- The bytes `b'GIF89a'`. -/
def gif89Magic : List Nat := strBytes "GIF89a"

/-- The PNG signature `b'\211PNG\r\n\032\n'`. -/
def pngSignatureBytes : List Nat := [137, 80, 78, 71, 13, 10, 26, 10]

/-- Model of `imgcat.get_image_shape` (`L = len(buf)` is inlined as
`buf.length`).  The final `else` branch (delegation to PIL when none of the
fixed magic signatures applies) is abstracted by the `fallback` parameter:
that branch never raises and returns `(None, None)` when PIL is unavailable
or cannot identify the content. -/
def get_image_shape (fallback : List Nat → Option Int × Option Int)
    (buf : List Nat) : Except String (Option Int × Option Int) :=
  if 10 ≤ buf.length ∧ (buf.take 6 = gif87Magic ∨ buf.take 6 = gif89Magic) then
    (unpack_hh_le ((buf.drop 6).take 4)).map
      (fun p => (Option.some p.1, Option.some p.2))
  else if 24 ≤ buf.length ∧ pngSignatureBytes.isPrefixOf buf ∧
      (buf.drop 12).take 4 = strBytes "IHDR" then
    (unpack_LL_be ((buf.drop 16).take 8)).map
      (fun p => (Option.some p.1, Option.some p.2))
  else if 16 ≤ buf.length ∧ pngSignatureBytes.isPrefixOf buf then
    (unpack_LL_be ((buf.drop 8).take 8)).map
      (fun p => (Option.some p.1, Option.some p.2))
  else
    Except.ok (fallback buf)

/-- The fallback of `get_image_shape` when PIL is unavailable or cannot
identify the content: dimensions unknown. -/
def unknownFallback : List Nat → Option Int × Option Int :=
  fun _ => (Option.none, Option.none)

/-! ## Legacy height resolution (`imgcat.imgcat`, `height == 'v0.5'` path) -/

/-- Model of the `height == 'v0.5'` resolution block of `imgcat.imgcat`
(lines 220-235): when the sniffed height is truthy, assert the divisor is
positive, compute `(im_height + pixels_per_line - 1) // pixels_per_line`
(Python floor division), and clamp to `[1, rows - 9]` when the terminal
size is obtainable (`tty_size = some (rows, columns)`); otherwise (the
`OSError` of `get_tty_size` is caught) use the unclamped value; when the
sniffed height is falsy (`None` or `0`), fall back to 10. -/
def legacy_height (im_height : Option Int) (pixels_per_line : Int)
    (tty_size : Option (Int × Int)) : Except String Int :=
  if pyTruthyOptInt im_height then
    if 0 < pixels_per_line then
      let h : Int :=
        (im_height.getD 0 + (pixels_per_line - 1)).fdiv pixels_per_line
      match tty_size with
      | Option.some rc => Except.ok (max 1 (min h (rc.1 - 9)))
      | Option.none => Except.ok h
    else Except.error "AssertionError"
  else Except.ok 10

/-! ## iTerm2 protocol encoder (`iterm2._write_image`) -/

/-- The bytes `b'\033Ptmux;'` (tmux DCS passthrough start marker). -/
def TMUX_WRAP_ST : List Nat := [27, 80, 116, 109, 117, 120, 59]

/-- The bytes `b'\033\\'` (tmux DCS passthrough end marker). -/
def TMUX_WRAP_ED : List Nat := [27, 92]

/-- The bytes `b'\033]'` (OSC). -/
def OSC : List Nat := [27, 93]

/-- The bytes `b'\033['` (CSI). -/
def CSI : List Nat := [27, 91]

/-- The bytes `b'\a'` (BEL, the sequence terminator `ST` of `iterm2.py`). -/
def ST : List Nat := [7]

/-- The tmux-only writes of `iterm2._write_image` performed before the OSC
sequence: `height` newlines, hide cursor, move the cursor up `height` lines,
and the passthrough start marker followed by one extra ESC.  Python
`b'\n' * height` requires `height` to be an `int` and raises `TypeError`
otherwise. -/
def iterm2_tmux_pre (height : PyVal) : Except String (List (List Nat)) :=
  match height with
  | PyVal.int n =>
      Except.ok [List.replicate n.toNat 10,
                 CSI ++ strBytes "?25l",
                 CSI ++ strBytes (toString n) ++ [70],
                 TMUX_WRAP_ST ++ [27]]
  | _ => Except.error "TypeError"

/-- The tmux-only writes of `iterm2._write_image` performed after the OSC
sequence: passthrough end marker, move the cursor down `height` lines,
show cursor. -/
def iterm2_tmux_post (height : PyVal) : List (List Nat) :=
  [TMUX_WRAP_ED,
   CSI ++ strBytes (pyStrOf height) ++ [69],
   CSI ++ strBytes "?25h"]

/-- Model of `iterm2._write_image`: the list of byte strings passed to the
successive `fp.write` calls.  `filename` is the byte string of the name
(`str` filenames are UTF-8 encoded first); `is_tmux` is the result of the
`'TMUX' in os.environ and 'tmux' in os.environ['TMUX']` check. -/
def write_image (buf : List Nat) (filename : Option (List Nat))
    (width height : PyVal) (preserve_aspect : Bool) (is_tmux : Bool) :
    Except String (List (List Nat)) :=
  (if is_tmux then iterm2_tmux_pre height else Except.ok []).map (fun pre =>
    pre ++
    ([OSC,
      strBytes "1337;File=inline=1",
      strBytes (";size=" ++ toString buf.length)] ++
     (match filename with
      | Option.some fb =>
          if fb ≠ [] then [strBytes ";name=" ++ base64Encode fb] else []
      | Option.none => []) ++
     [strBytes (";height=" ++ pyStrOf height)] ++
     (if pyTruthy width then [strBytes (";width=" ++ pyStrOf width)] else []) ++
     (if preserve_aspect then [] else [strBytes ";preserveAspectRatio=0"]) ++
     [strBytes ":",
      base64Encode buf,
      ST]) ++
    (if is_tmux then iterm2_tmux_post height else [strBytes "\n"]))

/-- The writes of a successful `write_image` call (`[]` on an exception);
used to state facts about the emitted byte strings. -/
def okWrites (e : Except String (List (List Nat))) : List (List Nat) :=
  match e with
  | Except.ok ws => ws
  | Except.error _ => []

/-! ## `imgcat.imgcat` -/

/-- Model of `imgcat.imgcat` on an already-converted byte buffer
(`to_content_buf` of a `bytes` argument is the identity).  `fallback` is
the PIL branch of `get_image_shape`, `tty_size` the result of
`get_tty_size` (`none` when the `OSError` is caught), `is_tmux` the tmux
detection of `iterm2._write_image`.  Returns the list of byte strings
written to `fp`, or the message of the raised exception; every `fp.write`
happens inside the final `iterm2._write_image` call, so an error means no
byte was written. -/
def imgcat (buf : List Nat) (filename : Option (List Nat))
    (width height : PyVal) (preserve_aspect : Bool)
    (pixels_per_line : Int)
    (fallback : List Nat → Option Int × Option Int)
    (tty_size : Option (Int × Int)) (is_tmux : Bool) :
    Except String (List (List Nat)) :=
  if buf = [] then Except.error "Empty buffer"
  else
    (if pyEq height (PyVal.str "v0.5") ∨ pyEq height (PyVal.str "original") ∨
        pyEq width (PyVal.str "original") then
      (get_image_shape fallback buf).bind (fun im =>
        let im_width := im.1
        let im_height := im.2
        (if pyEq height (PyVal.str "v0.5") then
          (legacy_height im_height pixels_per_line tty_size).map PyVal.int
        else if pyEq height (PyVal.str "original") then
          Except.ok (if pyTruthyOptInt im_height then
              PyVal.str (toString (im_height.getD 0) ++ "px")
            else PyVal.str "auto")
        else Except.ok height).map (fun height2 =>
          (if pyEq width (PyVal.str "original") then
            (if pyTruthyOptInt im_width then
              PyVal.str (toString (im_width.getD 0) ++ "px")
            else PyVal.str "auto")
          else width, height2)))
    else Except.ok (width, height)).bind (fun wh =>
      if pyEq wh.1 (PyVal.str "v0.5") then
        Except.error "There is no legacy fallback for width"
      else
        write_image buf filename wh.1 wh.2 preserve_aspect is_tmux)

/-! ## Size-literal grammar (`imgcat.parse_size`) -/

/-- Python slice `s[:j]` for an `int` index `j` (possibly negative or out of
range): a negative index counts from the end, and the bound is clamped to
`[0, len(s)]`. -/
def pySliceTo (s : String) (j : Int) : String :=
  let l := s.toList
  let bound : Nat := if j < 0 then l.length - (-j).toNat else j.toNat
  String.mk (l.take bound)

/-- Python `str.endswith` (an empty suffix always matches). -/
def pyEndsWith (s suffix : String) : Bool :=
  suffix.toList.isSuffixOf s.toList

/-- Decimal value of a nonempty run of digit characters (`none` as soon as
a non-digit appears). -/
def digitsVal (acc : Nat) : List Char → Option Nat
  | [] => Option.some acc
  | c :: t =>
      if 48 ≤ c.toNat ∧ c.toNat ≤ 57 then
        digitsVal (acc * 10 + (c.toNat - 48)) t
      else Option.none

/-- Model of Python `int(str)` on the strings handled by `parse_size`:
an optional sign followed by at least one digit; anything else (in
particular the empty string) raises `ValueError`.  (Python `int()` also
accepts surrounding whitespace and `_` digit separators, which `parse_size`
inputs do not use.) -/
def pyIntOfString (s : String) : Option Int :=
  match s.toList with
  | [] => Option.none
  | c :: rest =>
      if c = '-' then
        match rest with
        | [] => Option.none
        | _ => (digitsVal 0 rest).map (fun n => -(n : Int))
      else (digitsVal 0 (c :: rest)).map (fun n => (n : Int))

/-- Model of `imgcat.parse_size`.  The `for suffix in ("%", "px", "")`
loop is unrolled: the first suffix that `s.endswith` matches returns
`f"{int(s[:-len(suffix)])}{suffix}"`.  Note that for the empty suffix
`s[:-len(suffix)]` is `s[:-0]`, i.e. `s[:0] = ''` (see `pySliceTo`), so
that branch always evaluates `int('')`.  Result: `none` for `'default'`,
otherwise the returned string; a raised `ValueError` is an error. -/
def parse_size (s : String) : Except String (Option String) :=
  if s = "v0.5" ∨ s = "auto" ∨ s = "original" then Except.ok (Option.some s)
  else if s = "default" then Except.ok Option.none
  else if pyEndsWith s "%" then
    match pyIntOfString (pySliceTo s (-(1 : Int))) with
    | Option.some n => Except.ok (Option.some (toString n ++ "%"))
    | Option.none => Except.error "ValueError"
  else if pyEndsWith s "px" then
    match pyIntOfString (pySliceTo s (-(2 : Int))) with
    | Option.some n => Except.ok (Option.some (toString n ++ "px"))
    | Option.none => Except.error "ValueError"
  else
    match pyIntOfString (pySliceTo s (-(0 : Int))) with
    | Option.some n => Except.ok (Option.some (toString n))
    | Option.none => Except.error "ValueError"

/-! ## Kitty protocol encoder (`kitty.serialize_gr_command`,
`kitty.write_chunked`) -/

/-- The control-data byte string of a kitty graphics command:
`','.join('{}={}'.format(k, v) for k, v in cmd.items())`, the values
already rendered as strings. -/
def gr_control (cmd : List (String × String)) : List Nat :=
  strBytes (String.intercalate "," (cmd.map (fun p => p.1 ++ "=" ++ p.2)))

/-- Model of `kitty.serialize_gr_command`: the concatenation of the parts
appended to `ans`.  In tmux mode the passthrough start marker plus one
extra ESC precede the `ESC _G` introducer, one extra ESC precedes the
`ESC \` terminator, and the passthrough end marker follows it. -/
def serialize_gr_command (cmd : List (String × String)) (payload : List Nat)
    (is_tmux : Bool) : List Nat :=
  (if is_tmux then TMUX_WRAP_ST ++ [27] else []) ++
  ([27, 95, 71] ++ gr_control cmd ++
   (if payload ≠ [] then [59] ++ payload else []) ++
   (if is_tmux then [27] else []) ++
   [27, 92]) ++
  (if is_tmux then TMUX_WRAP_ED else [])

/-- The `while data:` loop of `kitty.write_chunked`, operating on the
base64 text: each iteration takes the first 4096 bytes as the chunk, sets
`cmd['m']` to `1` when more data follows and `0` otherwise (appending the
key at the end of the ordered mapping), emits the pair handed to
`serialize_gr_command`, and clears `cmd` so subsequent chunks carry only
`m`. -/
def write_chunked_loop (cmd : List (String × String)) (data : List Nat) :
    List (List (String × String) × List Nat) :=
  if h : data = [] then []
  else
    let chunk := data.take 4096
    let rest := data.drop 4096
    let m : String := if rest = [] then "0" else "1"
    (cmd ++ [("m", m)], chunk) :: write_chunked_loop [] rest
termination_by data.length
decreasing_by
  simp only [List.length_drop]
  exact Nat.sub_lt (List.length_pos.mpr h) (by norm_num)

/-- Model of `kitty.write_chunked`: base64-encode the data, then run the
chunking loop; the result is the list of `(control data, chunk)` pairs
passed to `serialize_gr_command` in order. -/
def write_chunked (cmd : List (String × String)) (data : List Nat) :
    List (List (String × String) × List Nat) :=
  write_chunked_loop cmd (base64Encode data)

/-! ## tmux passthrough unwrapping (`test_imgcat.tmux_unwrap_passthrough`) -/

/-- Python `bytes.index(sub)`: index of the first occurrence of `sub`. -/
def findSubIdx (pat l : List Nat) : Option Nat :=
  if pat.isPrefixOf l then Option.some 0
  else
    match l with
    | [] => Option.none
    | _ :: t => (findSubIdx pat t).map (fun i => i + 1)

/-- Python `bytes.rindex(sub)`: index of the last occurrence of `sub`. -/
def rfindSubIdx (pat : List Nat) : List Nat → Option Nat
  | [] => if pat.isPrefixOf ([] : List Nat) then Option.some 0 else Option.none
  | x :: t =>
      match rfindSubIdx pat t with
      | Option.some j => Option.some (j + 1)
      | Option.none =>
          if pat.isPrefixOf (x :: t) then Option.some 0 else Option.none

/-- Python `b.replace(b'\033\033', b'\033')`: replace non-overlapping
occurrences of doubled ESC bytes, scanning left to right. -/
def replace_esc_esc : List Nat → List Nat
  | [] => []
  | [x] => [x]
  | x :: y :: rest =>
      if x = 27 ∧ y = 27 then 27 :: replace_esc_esc rest
      else x :: replace_esc_esc (y :: rest)

/-- Modelled from the spec: "the wrapped inner sequence with every ESC
byte inside it doubled (escaped)" — doubling of every ESC byte of a
sequence, used to state what the claim asserts the wrapper does. -/
def double_esc : List Nat → List Nat
  | [] => []
  | x :: t => if x = 27 then 27 :: 27 :: double_esc t else x :: double_esc t

/-- Model of `test_imgcat.tmux_unwrap_passthrough`: locate the first
passthrough start marker and the last `ESC \`, take the bytes strictly
between `st + 7` and `ed`, and un-double the escaped ESC bytes; the
`assert False` when a marker is missing is an error. -/
def tmux_unwrap_passthrough (b : List Nat) : Except String (List Nat) :=
  match findSubIdx TMUX_WRAP_ST b, rfindSubIdx TMUX_WRAP_ED b with
  | Option.some st, Option.some ed =>
      Except.ok (replace_esc_esc ((b.take ed).drop (st + 7)))
  | _, _ => Except.error "AssertionError"

/-! ## Lemmas: base64 -/

theorem b64Val_b64Char : ∀ n : Fin 64, b64Val (b64Char n.val) = n.val := by
  decide

theorem b64Val_b64Char_of_lt {n : Nat} (h : n < 64) :
    b64Val (b64Char n) = n :=
  b64Val_b64Char ⟨n, h⟩

theorem b64Char_ne_61 : ∀ n : Fin 64, b64Char n.val ≠ 61 := by
  decide

theorem b64Char_ne_59 (n : Nat) : b64Char n ≠ 59 := by
  unfold b64Char
  split <;> try omega
  split <;> try omega
  split <;> try omega
  split <;> omega

theorem base64_roundtrip :
    ∀ l : List Nat, (∀ b ∈ l, b < 256) →
      base64Decode (base64Encode l) = l
  | [], _ => by simp [base64Encode, base64Decode]
  | [b0], h => by
      have hb0 : b0 < 256 := h b0 (by simp)
      have h0 : b0 / 4 < 64 := by omega
      have h1 : b0 % 4 * 16 < 64 := by omega
      simp only [base64Encode, base64Decode, if_pos rfl]
      rw [b64Val_b64Char_of_lt h0, b64Val_b64Char_of_lt h1]
      simp only [if_true, List.cons.injEq, and_true]
      omega
  | [b0, b1], h => by
      have hb0 : b0 < 256 := h b0 (by simp)
      have hb1 : b1 < 256 := h b1 (by simp)
      have h0 : b0 / 4 < 64 := by omega
      have h1 : b0 % 4 * 16 + b1 / 16 < 64 := by omega
      have h2 : b1 % 16 * 4 < 64 := by omega
      simp only [base64Encode, base64Decode]
      rw [if_neg (b64Char_ne_61 ⟨_, h2⟩)]
      rw [b64Val_b64Char_of_lt h0, b64Val_b64Char_of_lt h1,
          b64Val_b64Char_of_lt h2]
      simp only [if_true, List.cons.injEq, and_true]
      omega
  | b0 :: b1 :: b2 :: b3 :: rest, h => by
      have hb0 : b0 < 256 := h b0 (by simp)
      have hb1 : b1 < 256 := h b1 (by simp)
      have hb2 : b2 < 256 := h b2 (by simp)
      have h0 : b0 / 4 < 64 := by omega
      have h1 : b0 % 4 * 16 + b1 / 16 < 64 := by omega
      have h2 : b1 % 16 * 4 + b2 / 64 < 64 := by omega
      have h3 : b2 % 64 < 64 := by omega
      have ih := base64_roundtrip (b3 :: rest)
        (fun b hb => h b (by simp at hb ⊢; tauto))
      simp only [base64Encode, base64Decode]
      rw [if_neg (b64Char_ne_61 ⟨_, h2⟩), if_neg (b64Char_ne_61 ⟨_, h3⟩)]
      rw [b64Val_b64Char_of_lt h0, b64Val_b64Char_of_lt h1,
          b64Val_b64Char_of_lt h2, b64Val_b64Char_of_lt h3]
      have e0 : b0 / 4 * 4 + (b0 % 4 * 16 + b1 / 16) / 16 = b0 := by omega
      have e1 : (b0 % 4 * 16 + b1 / 16) % 16 * 16 +
          (b1 % 16 * 4 + b2 / 64) / 4 = b1 := by omega
      have e2 : (b1 % 16 * 4 + b2 / 64) % 4 * 64 + b2 % 64 = b2 := by omega
      simp only [base64Encode] at ih
      simp [e0, e1, e2, ih]
  | [b0, b1, b2], h => by
      have hb0 : b0 < 256 := h b0 (by simp)
      have hb1 : b1 < 256 := h b1 (by simp)
      have hb2 : b2 < 256 := h b2 (by simp)
      have h0 : b0 / 4 < 64 := by omega
      have h1 : b0 % 4 * 16 + b1 / 16 < 64 := by omega
      have h2 : b1 % 16 * 4 + b2 / 64 < 64 := by omega
      have h3 : b2 % 64 < 64 := by omega
      simp only [base64Encode, base64Decode]
      rw [if_neg (b64Char_ne_61 ⟨_, h2⟩), if_neg (b64Char_ne_61 ⟨_, h3⟩)]
      rw [b64Val_b64Char_of_lt h0, b64Val_b64Char_of_lt h1,
          b64Val_b64Char_of_lt h2, b64Val_b64Char_of_lt h3]
      have e0 : b0 / 4 * 4 + (b0 % 4 * 16 + b1 / 16) / 16 = b0 := by omega
      have e1 : (b0 % 4 * 16 + b1 / 16) % 16 * 16 +
          (b1 % 16 * 4 + b2 / 64) / 4 = b1 := by omega
      have e2 : (b1 % 16 * 4 + b2 / 64) % 4 * 64 + b2 % 64 = b2 := by omega
      simp [e0, e1, e2, base64Decode]

theorem ne59_b64Char (n : Nat) : 59 ≠ b64Char n :=
  fun hc => b64Char_ne_59 n hc.symm

theorem not_mem_59_base64Encode : ∀ l : List Nat, 59 ∉ base64Encode l
  | [] => by simp [base64Encode]
  | [b0] => by
      simp [base64Encode, ne59_b64Char]
  | [b0, b1] => by
      simp [base64Encode, ne59_b64Char]
  | b0 :: b1 :: b2 :: rest => by
      simp [base64Encode, ne59_b64Char, not_mem_59_base64Encode rest]

/-! ## Lemmas: kitty chunking -/

theorem base64Encode_ne_nil : ∀ l : List Nat, l ≠ [] → base64Encode l ≠ []
  | [], h => absurd rfl h
  | [_], _ => by simp [base64Encode]
  | [_, _], _ => by simp [base64Encode]
  | _ :: _ :: _ :: _, _ => by simp [base64Encode]

theorem write_chunked_loop_nil (cmd : List (String × String)) :
    write_chunked_loop cmd [] = [] := by
  rw [write_chunked_loop]
  simp

theorem write_chunked_loop_cons (cmd : List (String × String))
    (data : List Nat) (h : data ≠ []) :
    write_chunked_loop cmd data =
      (cmd ++ [("m", if data.drop 4096 = [] then "0" else "1")],
       data.take 4096) :: write_chunked_loop [] (data.drop 4096) := by
  rw [write_chunked_loop]
  simp [h]

theorem write_chunked_loop_ne_nil (cmd : List (String × String))
    (data : List Nat) (h : data ≠ []) :
    write_chunked_loop cmd data ≠ [] := by
  rw [write_chunked_loop_cons cmd data h]
  simp

theorem getLast?_cons_ne_nil {α : Type} (a : α) (l : List α) (h : l ≠ []) :
    (a :: l).getLast? = l.getLast? := by
  cases l with
  | nil => exact absurd rfl h
  | cons b t => exact List.getLast?_cons_cons

theorem write_chunked_loop_join :
    ∀ (data : List Nat) (cmd : List (String × String)),
      ((write_chunked_loop cmd data).map Prod.snd).flatten = data
  | data, cmd => by
      by_cases h : data = []
      · subst h; simp [write_chunked_loop_nil]
      · rw [write_chunked_loop_cons cmd data h]
        rw [List.map_cons, List.flatten_cons,
            write_chunked_loop_join (data.drop 4096) []]
        exact List.take_append_drop 4096 data
termination_by data => data.length
decreasing_by
  simp only [List.length_drop]
  exact Nat.sub_lt (List.length_pos.mpr h) (by norm_num)

theorem write_chunked_loop_sizes :
    ∀ (data : List Nat) (cmd : List (String × String)),
      ∀ p ∈ (write_chunked_loop cmd data).dropLast,
        (Prod.snd p).length = 4096
  | data, cmd => by
      by_cases h : data = []
      · subst h; simp [write_chunked_loop_nil]
      · rw [write_chunked_loop_cons cmd data h]
        by_cases hr : data.drop 4096 = []
        · rw [hr, write_chunked_loop_nil]
          simp
        · rw [List.dropLast_cons_of_ne_nil (write_chunked_loop_ne_nil _ _ hr)]
          intro p hp
          rcases List.mem_cons.mp hp with hp | hp
          · subst hp
            simp only [List.length_take]
            have : 4096 < data.length := by
              by_contra hc
              exact hr (List.drop_eq_nil_of_le (by omega))
            omega
          · exact write_chunked_loop_sizes (data.drop 4096) [] p hp
termination_by data => data.length
decreasing_by
  simp only [List.length_drop]
  exact Nat.sub_lt (List.length_pos.mpr h) (by norm_num)

theorem write_chunked_loop_last :
    ∀ (data : List Nat) (cmd : List (String × String)), data ≠ [] →
      ∃ pre chunk,
        (write_chunked_loop cmd data).getLast? =
          Option.some (pre ++ [("m", "0")], chunk) ∧
        chunk ≠ [] ∧ chunk.length ≤ 4096
  | data, cmd, h => by
      rw [write_chunked_loop_cons cmd data h]
      by_cases hr : data.drop 4096 = []
      · rw [hr, write_chunked_loop_nil]
        refine ⟨cmd, data.take 4096, ?_, ?_, ?_⟩
        · simp
        · simp only [ne_eq, List.take_eq_nil_iff, not_or]
          exact ⟨by norm_num, h⟩
        · simp [List.length_take]
      · obtain ⟨pre, chunk, h1, h2, h3⟩ :=
          write_chunked_loop_last (data.drop 4096) [] hr
        refine ⟨pre, chunk, ?_, h2, h3⟩
        rw [getLast?_cons_ne_nil _ _ (write_chunked_loop_ne_nil _ _ hr)]
        exact h1
termination_by data => data.length
decreasing_by
  simp only [List.length_drop]
  exact Nat.sub_lt (List.length_pos.mpr h) (by norm_num)

theorem write_chunked_loop_flags :
    ∀ (data : List Nat) (cmd : List (String × String)),
      ∀ p ∈ (write_chunked_loop cmd data).dropLast,
        ∃ pre, Prod.fst p = pre ++ [("m", "1")]
  | data, cmd => by
      by_cases h : data = []
      · subst h; simp [write_chunked_loop_nil]
      · rw [write_chunked_loop_cons cmd data h]
        by_cases hr : data.drop 4096 = []
        · rw [hr, write_chunked_loop_nil]
          simp
        · rw [List.dropLast_cons_of_ne_nil (write_chunked_loop_ne_nil _ _ hr)]
          intro p hp
          rcases List.mem_cons.mp hp with hp | hp
          · subst hp
            refine ⟨cmd, ?_⟩
            rw [if_neg hr]
          · exact write_chunked_loop_flags (data.drop 4096) [] p hp
termination_by data => data.length
decreasing_by
  simp only [List.length_drop]
  exact Nat.sub_lt (List.length_pos.mpr h) (by norm_num)

theorem write_chunked_loop_only_m :
    ∀ (data : List Nat),
      ∀ p ∈ write_chunked_loop [] data, ∃ v, Prod.fst p = [("m", v)]
  | data => by
      by_cases h : data = []
      · subst h; simp [write_chunked_loop_nil]
      · rw [write_chunked_loop_cons [] data h]
        intro p hp
        rcases List.mem_cons.mp hp with hp | hp
        · subst hp
          exact ⟨if data.drop 4096 = [] then "0" else "1", by simp⟩
        · exact write_chunked_loop_only_m (data.drop 4096) p hp
termination_by data => data.length
decreasing_by
  simp only [List.length_drop]
  exact Nat.sub_lt (List.length_pos.mpr h) (by norm_num)

/-! ## Lemmas: tmux passthrough wrapping -/

theorem isPrefixOf_self_append :
    ∀ l t : List Nat, l.isPrefixOf (l ++ t) = true
  | [], _ => by simp [List.isPrefixOf]
  | x :: l', t => by
      simp [List.isPrefixOf, isPrefixOf_self_append l' t]

theorem findSubIdx_zero (pat l : List Nat) (h : pat.isPrefixOf l = true) :
    findSubIdx pat l = Option.some 0 := by
  rw [findSubIdx.eq_def, if_pos h]

theorem rfind_esc_end :
    ∀ l : List Nat,
      rfindSubIdx TMUX_WRAP_ED (l ++ TMUX_WRAP_ED) = Option.some l.length
  | [] => by decide
  | x :: l' => by
      have ih := rfind_esc_end l'
      simp only [List.cons_append, rfindSubIdx]
      have happ : l'.append TMUX_WRAP_ED = l' ++ TMUX_WRAP_ED := rfl
      rw [happ, ih]
      simp

theorem replace_esc_esc_no_esc :
    ∀ l t : List Nat, 27 ∉ l →
      replace_esc_esc (l ++ t) = l ++ replace_esc_esc t
  | [], t, _ => by simp
  | x :: l', t, h => by
      have hx : x ≠ 27 := by simp at h; tauto
      have h' : 27 ∉ l' := by simp at h; tauto
      cases hlt : l' ++ t with
      | nil =>
          have hl' : l' = [] := (List.append_eq_nil.mp hlt).1
          have ht : t = [] := (List.append_eq_nil.mp hlt).2
          subst hl'; subst ht
          simp [replace_esc_esc]
      | cons y r =>
          simp only [List.cons_append, hlt, replace_esc_esc]
          rw [if_neg (by tauto)]
          rw [← hlt, replace_esc_esc_no_esc l' t h']

/-! ## Lemmas: container sniffer -/

theorem strBytes_IHDR : strBytes "IHDR" = [73, 72, 68, 82] := by decide

theorem list_len4_explode (l : List Nat) (h : l.length = 4) :
    ∃ a b c d, l = [a, b, c, d] := by
  rcases l with _ | ⟨a, _ | ⟨b, _ | ⟨c, _ | ⟨d, _ | ⟨e, t⟩⟩⟩⟩⟩ <;> simp_all

theorem list_len8_explode (l : List Nat) (h : l.length = 8) :
    ∃ a b c d e f g i, l = [a, b, c, d, e, f, g, i] := by
  rcases l with _ | ⟨a, t⟩
  · simp_all
  rcases t with _ | ⟨b, t⟩
  · simp_all
  rcases t with _ | ⟨c, t⟩
  · simp_all
  rcases t with _ | ⟨d, t⟩
  · simp_all
  obtain ⟨e, f, g, i, ht⟩ := list_len4_explode t (by simp_all)
  exact ⟨a, b, c, d, e, f, g, i, by rw [ht]⟩

theorem unpack_hh_le_of_len (l : List Nat) (h : l.length = 4) :
    ∃ r, unpack_hh_le l = Except.ok r := by
  obtain ⟨a, b, c, d, hl⟩ := list_len4_explode l h
  subst hl
  exact ⟨_, rfl⟩

theorem unpack_LL_be_of_len (l : List Nat) (h : l.length = 8) :
    ∃ r, unpack_LL_be l = Except.ok r := by
  obtain ⟨a, b, c, d, e, f, g, i, hl⟩ := list_len8_explode l h
  subst hl
  exact ⟨_, rfl⟩

/-- The sniffer never raises: the length guards of the three fixed-format
branches guarantee that the sliced header fields always have exactly the
width `struct.unpack` expects, and the fallback branch returns normally. -/
theorem get_image_shape_never_errors
    (fallback : List Nat → Option Int × Option Int) (buf : List Nat) :
    ∃ r, get_image_shape fallback buf = Except.ok r := by
  unfold get_image_shape
  split
  case isTrue h =>
    have h4 : ((buf.drop 6).take 4).length = 4 := by
      simp only [List.length_take, List.length_drop]
      omega
    obtain ⟨r, hr⟩ := unpack_hh_le_of_len _ h4
    rw [hr]
    exact ⟨_, rfl⟩
  case isFalse =>
    split
    case isTrue h =>
      have h8 : ((buf.drop 16).take 8).length = 8 := by
        simp only [List.length_take, List.length_drop]
        omega
      obtain ⟨r, hr⟩ := unpack_LL_be_of_len _ h8
      rw [hr]
      exact ⟨_, rfl⟩
    case isFalse =>
      split
      case isTrue h =>
        have h8 : ((buf.drop 8).take 8).length = 8 := by
          simp only [List.length_take, List.length_drop]
          omega
        obtain ⟨r, hr⟩ := unpack_LL_be_of_len _ h8
        rw [hr]
        exact ⟨_, rfl⟩
      case isFalse =>
        exact ⟨_, rfl⟩

/-- Evaluation of the sniffer on a well-formed GIF header: magic (either
version), then the four dimension bytes at offsets 6-10, then anything. -/
theorem get_image_shape_gif
    (fallback : List Nat → Option Int × Option Int) (m : List Nat)
    (hm : m = gif87Magic ∨ m = gif89Magic)
    (wlo whi hlo hhi : Nat) (rest : List Nat) :
    get_image_shape fallback (m ++ [wlo, whi, hlo, hhi] ++ rest) =
      Except.ok (Option.some (sle16 wlo whi), Option.some (sle16 hlo hhi)) := by
  have hm6 : m.length = 6 := by
    rcases hm with h | h <;> subst h <;> rfl
  have hassoc : m ++ [wlo, whi, hlo, hhi] ++ rest =
      m ++ ([wlo, whi, hlo, hhi] ++ rest) := by
    simp [List.append_assoc]
  have htake : (m ++ [wlo, whi, hlo, hhi] ++ rest).take 6 = m := by
    rw [hassoc, ← hm6]
    exact List.take_left m _
  have hdrop : (m ++ [wlo, whi, hlo, hhi] ++ rest).drop 6 =
      [wlo, whi, hlo, hhi] ++ rest := by
    rw [hassoc, ← hm6]
    exact List.drop_left m _
  have hlen : 10 ≤ (m ++ [wlo, whi, hlo, hhi] ++ rest).length := by
    simp [hm6]
    omega
  unfold get_image_shape
  rw [if_pos ⟨hlen, by rw [htake]; exact hm.imp (fun h => h) (fun h => h)⟩]
  rw [hdrop]
  rfl

/-- Evaluation of the sniffer on a well-formed PNG header with the IHDR
chunk at offset 12: signature, 4 chunk-length bytes, `IHDR`, then the
four width bytes and four height bytes at offsets 16-24, then anything. -/
theorem get_image_shape_png
    (fallback : List Nat → Option Int × Option Int)
    (c0 c1 c2 c3 w0 w1 w2 w3 h0 h1 h2 h3 : Nat) (rest : List Nat) :
    get_image_shape fallback
        (pngSignatureBytes ++ [c0, c1, c2, c3] ++ strBytes "IHDR" ++
         [w0, w1, w2, w3, h0, h1, h2, h3] ++ rest) =
      Except.ok (Option.some (ube32 w0 w1 w2 w3),
                 Option.some (ube32 h0 h1 h2 h3)) := by
  rw [strBytes_IHDR]
  set A : List Nat := [c0, c1, c2, c3] with hA
  set I : List Nat := [73, 72, 68, 82] with hI
  set D : List Nat := [w0, w1, w2, w3, h0, h1, h2, h3] with hD
  have hassoc : pngSignatureBytes ++ A ++ I ++ D ++ rest =
      pngSignatureBytes ++ (A ++ (I ++ (D ++ rest))) := by
    simp [List.append_assoc]
  have hlen : (pngSignatureBytes ++ A ++ I ++ D ++ rest).length =
      24 + rest.length := by
    simp [hA, hI, hD, pngSignatureBytes]
    omega
  have htake6 : (pngSignatureBytes ++ A ++ I ++ D ++ rest).take 6 =
      [137, 80, 78, 71, 13, 10] := by
    rw [hassoc]
    rw [List.take_append_of_le_length (by simp [pngSignatureBytes])]
    rfl
  have hpfx : pngSignatureBytes.isPrefixOf
      (pngSignatureBytes ++ A ++ I ++ D ++ rest) = true := by
    rw [hassoc]
    exact isPrefixOf_self_append _ _
  have hdrop12 : (pngSignatureBytes ++ A ++ I ++ D ++ rest).drop 12 =
      I ++ (D ++ rest) := by
    have h12 : (pngSignatureBytes ++ A).length = 12 := by
      simp [hA, pngSignatureBytes]
    have : pngSignatureBytes ++ A ++ I ++ D ++ rest =
        (pngSignatureBytes ++ A) ++ (I ++ (D ++ rest)) := by
      simp [List.append_assoc]
    rw [this, ← h12]
    exact List.drop_left _ _
  have hdrop16 : (pngSignatureBytes ++ A ++ I ++ D ++ rest).drop 16 =
      D ++ rest := by
    have h16 : (pngSignatureBytes ++ A ++ I).length = 16 := by
      simp [hA, hI, pngSignatureBytes]
    have : pngSignatureBytes ++ A ++ I ++ D ++ rest =
        (pngSignatureBytes ++ A ++ I) ++ (D ++ rest) := by
      simp [List.append_assoc]
    rw [this, ← h16]
    exact List.drop_left _ _
  unfold get_image_shape
  rw [if_neg, if_pos]
  · rw [hdrop16]
    have : (D ++ rest).take 8 = D := by
      rw [← show D.length = 8 from by simp [hD]]
      exact List.take_left D rest
    rw [this]
    rfl
  · refine ⟨by rw [hlen]; omega, hpfx, ?_⟩
    rw [hdrop12, ← show I.length = 4 from by simp [hI]]
    exact List.take_left I _
  · rintro ⟨-, hor⟩
    rw [htake6] at hor
    rcases hor with h | h <;> simp [gif87Magic, gif89Magic, strBytes] at h

/-! ## Lemmas: legacy height -/

theorem fdiv_ceil_char (P c H : Int) (hP : 0 < P)
    (h1 : P * (c - 1) < H) (h2 : H ≤ P * c) :
    (H + (P - 1)).fdiv P = c := by
  rw [Int.fdiv_eq_ediv _ (le_of_lt hP)]
  have hlow : c ≤ (H + (P - 1)) / P :=
    (Int.le_ediv_iff_mul_le hP).mpr (by nlinarith)
  have hhigh : (H + (P - 1)) / P < c + 1 :=
    (Int.ediv_lt_iff_lt_mul hP).mpr (by nlinarith)
  omega

theorem legacy_height_ok (im_height : Option Int) (pixels_per_line : Int)
    (tty_size : Option (Int × Int)) (hp : 0 < pixels_per_line) :
    ∃ n, legacy_height im_height pixels_per_line tty_size = Except.ok n := by
  unfold legacy_height
  by_cases ht : pyTruthyOptInt im_height = true
  · rw [if_pos ht, if_pos hp]
    cases tty_size with
    | none => exact ⟨_, rfl⟩
    | some rc => exact ⟨_, rfl⟩
  · rw [if_neg ht]
    exact ⟨_, rfl⟩

theorem isPrefixOf_exists_append :
    ∀ pat l : List Nat, pat.isPrefixOf l = true → ∃ t, l = pat ++ t
  | [], l, _ => ⟨l, rfl⟩
  | p :: ps, [], h => by simp [List.isPrefixOf] at h
  | p :: ps, x :: xs, h => by
      simp only [List.isPrefixOf, Bool.and_eq_true, beq_iff_eq] at h
      obtain ⟨t, ht⟩ := isPrefixOf_exists_append ps xs h.2
      exact ⟨t, by rw [h.1, ht]; rfl⟩

/-! ## Claim C1 -/

/-- C1, counterexample.  A well-formed GIF header can store a height of `0`
(bytes `01 00 00 00` at offsets 6-10: width 1, height 0).  The sniffed
height is then known and equal to `0`; the claim demands
`clamp(ceil(0 / 24)) = max 1 (min 0 (30 - 9)) = 1` for a 30-row terminal,
but the code treats the falsy value `0` like an unknown height and resolves
to the fallback of 10 rows. -/
theorem C1_counterexample :
    get_image_shape unknownFallback
        [71, 73, 70, 56, 57, 97, 1, 0, 0, 0] =
      Except.ok (Option.some 1, Option.some 0) ∧
    legacy_height (Option.some 0) 24 (Option.some (30, 80)) = Except.ok 10 ∧
    (10 : Int) ≠ max 1 (min 0 (30 - 9)) := by
  refine ⟨rfl, rfl, by decide⟩

/-- C1, amended.  Legacy height resolution, for a sniffed height that is
known and nonzero: with positive divisor `P`, the result is
`ceil(H / P)` (characterised by `P * (c - 1) < H ≤ P * c`) clamped to
`[1, rows - 9]` when the terminal size is obtainable, and unclamped
otherwise; the fixed constant 10 is used when the sniffed height is
unknown, or zero (the code tests Python truthiness, which conflates a zero
height with an unknown one). -/
theorem C1_legacy_height_resolution (H ppl rows cols c : Int)
    (hp : 0 < ppl) (hH : H ≠ 0)
    (hc1 : ppl * (c - 1) < H) (hc2 : H ≤ ppl * c) :
    legacy_height (Option.some H) ppl (Option.some (rows, cols)) =
      Except.ok (max 1 (min c (rows - 9))) ∧
    legacy_height (Option.some H) ppl Option.none = Except.ok c ∧
    (∀ (ppl' : Int) (tty : Option (Int × Int)),
      legacy_height Option.none ppl' tty = Except.ok 10) ∧
    (∀ (ppl' : Int) (tty : Option (Int × Int)),
      legacy_height (Option.some 0) ppl' tty = Except.ok 10) := by
  have ht : pyTruthyOptInt (Option.some H) = true := by
    simp [pyTruthyOptInt, hH]
  have hfd : (Option.getD (Option.some H) 0 + (ppl - 1)).fdiv ppl = c := by
    simp only [Option.getD]
    exact fdiv_ceil_char ppl c H hp hc1 hc2
  refine ⟨?_, ?_, ?_, ?_⟩
  · unfold legacy_height
    rw [if_pos ht, if_pos hp]
    simp only [hfd]
  · unfold legacy_height
    rw [if_pos ht, if_pos hp]
    simp only [hfd]
  · intro ppl' tty
    simp [legacy_height, pyTruthyOptInt]
  · intro ppl' tty
    simp [legacy_height, pyTruthyOptInt]

/-- C1, witness: a 100-pixel-high image, 24 pixels per row, on a 50-row
terminal; `ceil(100 / 24) = 5` and `max 1 (min 5 41) = 5`. -/
theorem C1_witness :
    legacy_height (Option.some 100) 24 (Option.some (50, 80)) =
      Except.ok (max 1 (min 5 (50 - 9))) ∧
    legacy_height (Option.some 100) 24 Option.none = Except.ok 5 ∧
    (∀ (ppl' : Int) (tty : Option (Int × Int)),
      legacy_height Option.none ppl' tty = Except.ok 10) ∧
    (∀ (ppl' : Int) (tty : Option (Int × Int)),
      legacy_height (Option.some 0) ppl' tty = Except.ok 10) :=
  C1_legacy_height_resolution 100 24 50 80 5 (by decide) (by decide)
    (by decide) (by decide)

/-! ## Claim C5 -/

/-- C5, counterexample.  A 9-byte buffer starting with the GIF89a magic is
too short to unpack the dimension fields, yet the sniffer does not raise
`ValueError("Invalid GIF file")`: the `L >= 10` guard routes it to the
generic fallback, which reports unknown dimensions. -/
theorem C5_counterexample :
    get_image_shape unknownFallback [71, 73, 70, 56, 57, 97, 0, 0, 0] =
      Except.ok (Option.none, Option.none) := by
  rfl

/-- C5, amended.  Buffers whose leading bytes match the GIF magic but are
shorter than 10 bytes, or match the PNG signature but are shorter than 16
bytes, make the sniffer fall through to the generic fallback and return
normally (no format-tagged error); indeed the length guards make the
`struct.error` branches unreachable for every input (see
`get_image_shape_never_errors`). -/
theorem C5_short_magic_falls_through :
    (∀ (f : List Nat → Option Int × Option Int) (buf : List Nat),
      (gif87Magic.isPrefixOf buf = true ∨ gif89Magic.isPrefixOf buf = true) →
      buf.length < 10 →
      get_image_shape f buf = Except.ok (f buf)) ∧
    (∀ (f : List Nat → Option Int × Option Int) (buf : List Nat),
      pngSignatureBytes.isPrefixOf buf = true →
      buf.length < 16 →
      get_image_shape f buf = Except.ok (f buf)) := by
  constructor
  · intro f buf _ hlen
    unfold get_image_shape
    rw [if_neg (by omega : ¬(10 ≤ buf.length ∧ _)),
        if_neg (by rintro ⟨h24, -⟩; omega),
        if_neg (by rintro ⟨h16, -⟩; omega)]
  · intro f buf hpfx hlen
    obtain ⟨t, ht⟩ := isPrefixOf_exists_append _ _ hpfx
    unfold get_image_shape
    rw [if_neg, if_neg (by rintro ⟨h24, -⟩; omega),
        if_neg (by rintro ⟨h16, -⟩; omega)]
    rintro ⟨-, hor⟩
    rw [ht] at hor
    have htake : ((pngSignatureBytes ++ t).take 6) = [137, 80, 78, 71, 13, 10] := by
      rw [List.take_append_of_le_length (by simp [pngSignatureBytes])]
      rfl
    rw [htake] at hor
    rcases hor with h | h <;> simp [gif87Magic, gif89Magic, strBytes] at h

/-- C5, witness: a 7-byte GIF87a-magic buffer and a 10-byte PNG-signature
buffer both fall through to the fallback and return unknown dimensions. -/
theorem C5_witness :
    get_image_shape unknownFallback [71, 73, 70, 56, 55, 97, 0] =
      Except.ok (unknownFallback [71, 73, 70, 56, 55, 97, 0]) ∧
    get_image_shape unknownFallback
        [137, 80, 78, 71, 13, 10, 26, 10, 0, 0] =
      Except.ok (unknownFallback [137, 80, 78, 71, 13, 10, 26, 10, 0, 0]) :=
  ⟨C5_short_magic_falls_through.1 unknownFallback _ (Or.inl (by decide))
      (by decide),
   C5_short_magic_falls_through.2 unknownFallback _ (by decide) (by decide)⟩

/-! ## Claim C6 -/

/-- C6, counterexample.  A GIF header storing width 32768 (bytes `00 80`
little-endian) and height 1: the container stores the unsigned value 32768,
but `struct.unpack("<hh", ...)` decodes it as a signed 16-bit integer and
`get_image_shape` returns `-32768` instead. -/
theorem C6_counterexample :
    get_image_shape unknownFallback
        [71, 73, 70, 56, 57, 97, 0, 128, 1, 0] =
      Except.ok (Option.some (-32768), Option.some 1) ∧
    (-32768 : Int) ≠ 32768 := by
  refine ⟨rfl, by decide⟩

/-- C6, amended.  On well-formed headers the sniffer returns the stored
dimensions exactly, with one restriction forced by the signed GIF decode:
for GIF87a/GIF89a buffers the two little-endian 16-bit fields are returned
exactly when each stored value is below 32768 (stored values in
`[32768, 65535]` come back negative, see C10); for PNG buffers with the
IHDR chunk at offset 12 the big-endian 32-bit dimensions at offsets 16-24
are returned exactly, unconditionally. -/
theorem C6_sniffer_well_formed_headers :
    (∀ (f : List Nat → Option Int × Option Int) (m : List Nat)
       (wlo whi hlo hhi : Nat) (rest : List Nat),
      (m = gif87Magic ∨ m = gif89Magic) →
      wlo + 256 * whi < 32768 → hlo + 256 * hhi < 32768 →
      get_image_shape f (m ++ [wlo, whi, hlo, hhi] ++ rest) =
        Except.ok (Option.some ((wlo + 256 * whi : Nat) : Int),
                   Option.some ((hlo + 256 * hhi : Nat) : Int))) ∧
    (∀ (f : List Nat → Option Int × Option Int)
       (c0 c1 c2 c3 w0 w1 w2 w3 h0 h1 h2 h3 : Nat) (rest : List Nat),
      get_image_shape f
          (pngSignatureBytes ++ [c0, c1, c2, c3] ++ strBytes "IHDR" ++
           [w0, w1, w2, w3, h0, h1, h2, h3] ++ rest) =
        Except.ok (Option.some (ube32 w0 w1 w2 w3),
                   Option.some (ube32 h0 h1 h2 h3))) := by
  constructor
  · intro f m wlo whi hlo hhi rest hm hw hh
    rw [get_image_shape_gif f m hm wlo whi hlo hhi rest]
    unfold sle16
    rw [if_pos (by omega), if_pos (by omega)]
  · intro f c0 c1 c2 c3 w0 w1 w2 w3 h0 h1 h2 h3 rest
    exact get_image_shape_png f c0 c1 c2 c3 w0 w1 w2 w3 h0 h1 h2 h3 rest

/-- C6, witness: a 3x2 GIF89a image and a 5x7 PNG image are sniffed
exactly. -/
theorem C6_witness :
    get_image_shape unknownFallback
        (gif89Magic ++ [3, 0, 2, 0] ++ []) =
      Except.ok (Option.some ((3 + 256 * 0 : Nat) : Int),
                 Option.some ((2 + 256 * 0 : Nat) : Int)) ∧
    get_image_shape unknownFallback
        (pngSignatureBytes ++ [0, 0, 0, 13] ++ strBytes "IHDR" ++
         [0, 0, 0, 5, 0, 0, 0, 7] ++ []) =
      Except.ok (Option.some (ube32 0 0 0 5), Option.some (ube32 0 0 0 7)) :=
  ⟨C6_sniffer_well_formed_headers.1 unknownFallback gif89Magic 3 0 2 0 []
      (Or.inr rfl) (by decide) (by decide),
   C6_sniffer_well_formed_headers.2 unknownFallback 0 0 0 13 0 0 0 5 0 0 0 7 []⟩

/-! ## Claim C10 -/

/-- C10.  For a GIF87a/GIF89a buffer of length at least 10, the two 16-bit
dimension fields are decoded as signed little-endian integers: a stored
field value in `[32768, 65535]` is returned as that value minus 65536, a
negative number, rather than as the unsigned value the container encodes. -/
theorem C10_gif_signed_decode
    (f : List Nat → Option Int × Option Int) (m : List Nat)
    (wlo whi hlo hhi : Nat) (rest : List Nat)
    (hm : m = gif87Magic ∨ m = gif89Magic)
    (hwlo : wlo < 256) (hwhi : whi < 256) (hhlo : hlo < 256) (hhhi : hhi < 256)
    (hw : 32768 ≤ wlo + 256 * whi) (hh : 32768 ≤ hlo + 256 * hhi) :
    get_image_shape f (m ++ [wlo, whi, hlo, hhi] ++ rest) =
      Except.ok (Option.some (((wlo + 256 * whi : Nat) : Int) - 65536),
                 Option.some (((hlo + 256 * hhi : Nat) : Int) - 65536)) ∧
    ((wlo + 256 * whi : Nat) : Int) - 65536 < 0 ∧
    ((hlo + 256 * hhi : Nat) : Int) - 65536 < 0 := by
  refine ⟨?_, ?_, ?_⟩
  · rw [get_image_shape_gif f m hm wlo whi hlo hhi rest]
    unfold sle16
    rw [if_neg (by omega), if_neg (by omega)]
  · have : wlo + 256 * whi < 65536 := by omega
    push_cast
    omega
  · have : hlo + 256 * hhi < 65536 := by omega
    push_cast
    omega

/-- C10, witness: a GIF89a header storing width 32768 and height 65535;
the sniffer returns `-32768` and `-1`. -/
theorem C10_witness :
    get_image_shape unknownFallback
        (gif89Magic ++ [0, 128, 255, 255] ++ []) =
      Except.ok (Option.some (((0 + 256 * 128 : Nat) : Int) - 65536),
                 Option.some (((255 + 256 * 255 : Nat) : Int) - 65536)) ∧
    ((0 + 256 * 128 : Nat) : Int) - 65536 < 0 ∧
    ((255 + 256 * 255 : Nat) : Int) - 65536 < 0 :=
  C10_gif_signed_decode unknownFallback gif89Magic 0 128 255 255 []
    (Or.inr rfl) (by decide) (by decide) (by decide) (by decide)
    (by decide) (by decide)

/-! ## Claim C9 -/

/-- C9.  Evaluation of `parse_size` on the documented grammar: the suffix
forms `px` and `%`, and the literal tokens, behave as specified; but a bare
integer such as `"42"` raises `ValueError`, because the empty-suffix branch
evaluates `int(s[:-len("")])`, i.e. `int(s[:0]) = int('')`.  This
contradicts the documented grammar (`HELP_EPILOG`: "N: Number of character
cells."), which the spec restates, so the bare-integer case is a bug in the
code rather than in the claim. -/
theorem C9_parse_size_eval :
    parse_size "42" = Except.error "ValueError" ∧
    parse_size "42px" = Except.ok (Option.some "42px") ∧
    parse_size "42%" = Except.ok (Option.some "42%") ∧
    parse_size "default" = Except.ok Option.none ∧
    parse_size "auto" = Except.ok (Option.some "auto") ∧
    parse_size "original" = Except.ok (Option.some "original") ∧
    parse_size "v0.5" = Except.ok (Option.some "v0.5") := by
  refine ⟨rfl, by decide, by decide, rfl, rfl, rfl, rfl⟩

/-! ## Claim C2 -/

/-- C2.  Kitty chunking: for a non-empty buffer, the base64 text is split
into chunks of exactly 4096 bytes (last possibly shorter but non-empty);
every chunk except the last carries `m=1` as its final control key and the
last carries `m=0`; only the first chunk carries the caller's full control
mapping (with `m` appended) while every subsequent chunk carries only `m`;
and the chunk payloads concatenate to the base64 text, whose decoding
reproduces the buffer byte-for-byte. -/
theorem C2_kitty_chunking (cmd : List (String × String)) (data : List Nat)
    (hne : data ≠ []) (hbytes : ∀ b ∈ data, b < 256) :
    write_chunked cmd data ≠ [] ∧
    (∀ p ∈ (write_chunked cmd data).dropLast, (Prod.snd p).length = 4096) ∧
    (∀ p ∈ (write_chunked cmd data).dropLast,
      ∃ pre, Prod.fst p = pre ++ [("m", "1")]) ∧
    (∃ pre chunk, (write_chunked cmd data).getLast? =
        Option.some (pre ++ [("m", "0")], chunk) ∧
      chunk ≠ [] ∧ chunk.length ≤ 4096) ∧
    (∃ m tl, write_chunked cmd data =
        (cmd ++ [("m", m)], (base64Encode data).take 4096) :: tl ∧
      ∀ p ∈ tl, ∃ v, Prod.fst p = [("m", v)]) ∧
    ((write_chunked cmd data).map Prod.snd).flatten = base64Encode data ∧
    base64Decode (((write_chunked cmd data).map Prod.snd).flatten) = data := by
  have henc : base64Encode data ≠ [] := base64Encode_ne_nil data hne
  refine ⟨?_, ?_, ?_, ?_, ?_, ?_, ?_⟩
  · exact write_chunked_loop_ne_nil cmd _ henc
  · exact write_chunked_loop_sizes _ cmd
  · exact write_chunked_loop_flags _ cmd
  · exact write_chunked_loop_last _ cmd henc
  · refine ⟨if (base64Encode data).drop 4096 = [] then "0" else "1",
        write_chunked_loop [] ((base64Encode data).drop 4096), ?_, ?_⟩
    · exact write_chunked_loop_cons cmd _ henc
    · exact write_chunked_loop_only_m _
  · exact write_chunked_loop_join _ cmd
  · rw [show write_chunked cmd data =
        write_chunked_loop cmd (base64Encode data) from rfl,
        write_chunked_loop_join _ cmd]
    exact base64_roundtrip data hbytes

/-- C2, witness: the three-byte buffer `[1, 2, 3]` with the usual first
chunk control keys. -/
theorem C2_witness :
    write_chunked [("a", "T"), ("f", "100")] [1, 2, 3] ≠ [] ∧
    (∀ p ∈ (write_chunked [("a", "T"), ("f", "100")] [1, 2, 3]).dropLast,
      (Prod.snd p).length = 4096) ∧
    (∀ p ∈ (write_chunked [("a", "T"), ("f", "100")] [1, 2, 3]).dropLast,
      ∃ pre, Prod.fst p = pre ++ [("m", "1")]) ∧
    (∃ pre chunk,
      (write_chunked [("a", "T"), ("f", "100")] [1, 2, 3]).getLast? =
        Option.some (pre ++ [("m", "0")], chunk) ∧
      chunk ≠ [] ∧ chunk.length ≤ 4096) ∧
    (∃ m tl, write_chunked [("a", "T"), ("f", "100")] [1, 2, 3] =
        ([("a", "T"), ("f", "100")] ++ [("m", m)],
         (base64Encode [1, 2, 3]).take 4096) :: tl ∧
      ∀ p ∈ tl, ∃ v, Prod.fst p = [("m", v)]) ∧
    ((write_chunked [("a", "T"), ("f", "100")] [1, 2, 3]).map
        Prod.snd).flatten = base64Encode [1, 2, 3] ∧
    base64Decode (((write_chunked [("a", "T"), ("f", "100")] [1, 2, 3]).map
        Prod.snd).flatten) = [1, 2, 3] :=
  C2_kitty_chunking [("a", "T"), ("f", "100")] [1, 2, 3] (by decide)
    (by decide)

/-! ## Lemmas: iTerm2 writer -/

theorem strBytes_append (a b : String) :
    strBytes (a ++ b) = strBytes a ++ strBytes b := by
  simp [strBytes]

/-- The writes of `iterm2._write_image` outside tmux, in order. -/
theorem write_image_nontmux (buf : List Nat) (filename : Option (List Nat))
    (width height : PyVal) (preserve_aspect : Bool) :
    write_image buf filename width height preserve_aspect false =
      Except.ok
        ([OSC,
          strBytes "1337;File=inline=1",
          strBytes (";size=" ++ toString buf.length)] ++
         (match filename with
          | Option.some fb =>
              if fb ≠ [] then [strBytes ";name=" ++ base64Encode fb] else []
          | Option.none => []) ++
         [strBytes (";height=" ++ pyStrOf height)] ++
         (if pyTruthy width then [strBytes (";width=" ++ pyStrOf width)]
          else []) ++
         (if preserve_aspect then [] else [strBytes ";preserveAspectRatio=0"]) ++
         [strBytes ":", base64Encode buf, ST] ++
         [strBytes "\n"]) := by
  unfold write_image
  simp [Except.map]

theorem isPrefixOf_cons_false {a b : Nat} (ha : a ≠ b) (t l : List Nat) :
    ((a :: t).isPrefixOf (b :: l)) = false := by
  simp [List.isPrefixOf, ha]

theorem isPrefixOf_nil_false (a : Nat) (t : List Nat) :
    ((a :: t).isPrefixOf ([] : List Nat)) = false := rfl

/-- A byte string that does not contain byte 59 (`;`) cannot start with
the `;width=` field tag. -/
theorem width_tag_no_prefix_of_no59 (l : List Nat) (h : 59 ∉ l) :
    ((strBytes ";width=").isPrefixOf l) = false := by
  cases l with
  | nil => rfl
  | cons b bs =>
      have hb : (59 : Nat) ≠ b := fun hc => h (by rw [← hc] at *; simp)
      exact isPrefixOf_cons_false hb _ _

/-- Every write of a non-tmux `_write_image` call is one of the eleven
possible byte strings, with the optional ones tagged by their emission
condition. -/
theorem mem_write_image_cases (buf : List Nat) (filename : Option (List Nat))
    (width height : PyVal) (preserve_aspect : Bool) (w : List Nat)
    (hw : w ∈ okWrites (write_image buf filename width height
            preserve_aspect false)) :
    w = OSC ∨ w = strBytes "1337;File=inline=1" ∨
    w = strBytes (";size=" ++ toString buf.length) ∨
    (∃ fb, filename = Option.some fb ∧ fb ≠ [] ∧
      w = strBytes ";name=" ++ base64Encode fb) ∨
    w = strBytes (";height=" ++ pyStrOf height) ∨
    (pyTruthy width = true ∧ w = strBytes (";width=" ++ pyStrOf width)) ∨
    (preserve_aspect = false ∧ w = strBytes ";preserveAspectRatio=0") ∨
    w = strBytes ":" ∨ w = base64Encode buf ∨ w = ST ∨
    w = strBytes "\n" := by
  rw [write_image_nontmux] at hw
  simp only [okWrites] at hw
  cases filename with
  | none =>
      by_cases hwid : pyTruthy width = true <;>
        by_cases hpa : preserve_aspect = true <;>
        simp [hwid, hpa] at hw ⊢ <;> tauto
  | some fb =>
      by_cases hfb : fb = [] <;>
        by_cases hwid : pyTruthy width = true <;>
        by_cases hpa : preserve_aspect = true <;>
        simp [hfb, hwid, hpa] at hw ⊢ <;> tauto

theorem strB_size : strBytes ";size=" = [59, 115, 105, 122, 101, 61] := by
  decide

theorem strB_name : strBytes ";name=" = [59, 110, 97, 109, 101, 61] := by
  decide

theorem strB_height :
    strBytes ";height=" = [59, 104, 101, 105, 103, 104, 116, 61] := by
  decide

theorem strB_width :
    strBytes ";width=" = [59, 119, 105, 100, 116, 104, 61] := by
  decide

theorem strB_par :
    strBytes ";preserveAspectRatio=0" =
      [59, 112, 114, 101, 115, 101, 114, 118, 101, 65, 115, 112, 101, 99,
       116, 82, 97, 116, 105, 111, 61, 48] := by
  decide

/-- With `width` unset (`None`), no write of `_write_image` starts with the
`;width=` field tag. -/
theorem write_image_width_omitted_aux (buf : List Nat)
    (filename : Option (List Nat)) (height : PyVal)
    (preserve_aspect : Bool) :
    ∀ w ∈ okWrites (write_image buf filename PyVal.none height
        preserve_aspect false),
      ((strBytes ";width=").isPrefixOf w) = false := by
  intro w hw
  rcases mem_write_image_cases buf filename PyVal.none height
      preserve_aspect w hw with
    h | h | h | ⟨fb, hfb, hne, h⟩ | h | ⟨ht, h⟩ | ⟨hpa, h⟩ | h | h | h | h
  · rw [h]; decide
  · rw [h]; decide
  · rw [h, strBytes_append, strB_size, strB_width]
    simp [List.isPrefixOf]
  · rw [h, strB_name, strB_width]
    simp [List.isPrefixOf]
  · rw [h, strBytes_append, strB_height, strB_width]
    simp [List.isPrefixOf]
  · simp [pyTruthy] at ht
  · rw [h, strB_par, strB_width]
    simp [List.isPrefixOf]
  · rw [h]; decide
  · rw [h]
    exact width_tag_no_prefix_of_no59 _ (not_mem_59_base64Encode buf)
  · rw [h]; decide
  · rw [h]; decide

/-- With aspect-ratio preservation enabled (the default), the
`;preserveAspectRatio=0` field is never written. -/
theorem write_image_par_not_mem_aux (buf : List Nat)
    (filename : Option (List Nat)) (width height : PyVal) :
    strBytes ";preserveAspectRatio=0" ∉
      okWrites (write_image buf filename width height true false) := by
  intro hmem
  rcases mem_write_image_cases buf filename width height true _ hmem with
    h | h | h | ⟨fb, hfb, hne, h⟩ | h | ⟨ht, h⟩ | ⟨hpa, h⟩ | h | h | h | h
  · exact absurd h (by decide)
  · exact absurd h (by decide)
  · rw [strBytes_append, strB_size, strB_par] at h
    simp at h
  · rw [strB_name, strB_par] at h
    simp at h
  · rw [strBytes_append, strB_height, strB_par] at h
    simp at h
  · rw [strBytes_append, strB_width, strB_par] at h
    simp at h
  · exact absurd hpa (by decide)
  · exact absurd h (by decide)
  · apply not_mem_59_base64Encode buf
    rw [← h, strB_par]
    simp
  · exact absurd h (by decide)
  · exact absurd h (by decide)

/-! ## Claim C3 -/

/-- C3.  iTerm2 field rules, for the non-tmux write path: the `size` field
is the exact byte length of the unencoded buffer; when `width` is unset
(`None`) no write starts with the `;width=` tag; `;preserveAspectRatio=0`
is written exactly when aspect-ratio preservation is disabled; and the
sequence ends with `:`, the whole base64 payload as a single write, a
single BEL byte, and the trailing newline. -/
theorem C3_iterm2_field_rules (buf : List Nat) (filename : Option (List Nat))
    (width height : PyVal) (preserve_aspect : Bool) :
    ∃ ws,
      write_image buf filename width height preserve_aspect false =
        Except.ok ws ∧
      strBytes (";size=" ++ toString buf.length) ∈ ws ∧
      (width = PyVal.none →
        ∀ w ∈ ws, ((strBytes ";width=").isPrefixOf w) = false) ∧
      (strBytes ";preserveAspectRatio=0" ∈ ws ↔ preserve_aspect = false) ∧
      ∃ pre, ws = pre ++ [strBytes ":", base64Encode buf, ST, strBytes "\n"] := by
  refine ⟨_, write_image_nontmux buf filename width height preserve_aspect,
    ?_, ?_, ?_, ?_⟩
  · simp
  · intro hwn w hw
    subst hwn
    exact write_image_width_omitted_aux buf filename height preserve_aspect w
      (by rw [write_image_nontmux]; exact hw)
  · constructor
    · intro hmem
      cases hpa : preserve_aspect with
      | false => rfl
      | true =>
          exfalso
          apply write_image_par_not_mem_aux buf filename width height
          rw [write_image_nontmux]
          rw [hpa] at hmem
          exact hmem
    · intro hpa
      rw [hpa]
      simp
  · refine ⟨[OSC, strBytes "1337;File=inline=1",
        strBytes (";size=" ++ toString buf.length)] ++
      (match filename with
       | Option.some fb =>
           if fb ≠ [] then [strBytes ";name=" ++ base64Encode fb] else []
       | Option.none => []) ++
      [strBytes (";height=" ++ pyStrOf height)] ++
      (if pyTruthy width then [strBytes (";width=" ++ pyStrOf width)]
       else []) ++
      (if preserve_aspect then [] else [strBytes ";preserveAspectRatio=0"]),
      ?_⟩
    simp [List.append_assoc]

/-- C3, witness: an 82-byte buffer with a filename, numeric sizes and
aspect-ratio preservation disabled (the configuration of the repository's
own `test_args_another`). -/
theorem C3_witness :
    ∃ ws,
      write_image (List.replicate 82 0) (Option.some (strBytes "foo.png"))
          (PyVal.int 10) (PyVal.int 12) false false = Except.ok ws ∧
      strBytes (";size=" ++ toString (List.replicate 82 0).length) ∈ ws ∧
      (PyVal.int 10 = PyVal.none →
        ∀ w ∈ ws, ((strBytes ";width=").isPrefixOf w) = false) ∧
      (strBytes ";preserveAspectRatio=0" ∈ ws ↔ false = false) ∧
      ∃ pre, ws = pre ++ [strBytes ":", base64Encode (List.replicate 82 0),
        ST, strBytes "\n"] :=
  C3_iterm2_field_rules (List.replicate 82 0)
    (Option.some (strBytes "foo.png")) (PyVal.int 10) (PyVal.int 12) false

/-! ## Claim C8 -/

/-- C8, counterexample.  With an unspecified (`None`) height, the emitted
sequence still contains a height field, with the placeholder text `None`:
`_write_image` writes `;height=` + `str(height)` unconditionally. -/
theorem C8_counterexample :
    strBytes ";height=None" ∈
      okWrites (write_image [0] Option.none PyVal.none PyVal.none true
        false) := by
  decide

/-- C8, amended.  `Default` means omit for the width dimension only: when
`width` is `None` no write starts with the `;width=` tag; the height field
however is always emitted, as the placeholder `height=None` when the height
is unspecified. -/
theorem C8_default_width_omitted_height_emitted (buf : List Nat)
    (filename : Option (List Nat)) (width height : PyVal)
    (preserve_aspect : Bool) :
    (∀ w ∈ okWrites (write_image buf filename PyVal.none height
        preserve_aspect false),
      ((strBytes ";width=").isPrefixOf w) = false) ∧
    strBytes ";height=None" ∈
      okWrites (write_image buf filename width PyVal.none preserve_aspect
        false) := by
  constructor
  · exact write_image_width_omitted_aux buf filename height preserve_aspect
  · rw [write_image_nontmux]
    show strBytes ";height=None" ∈
      okWrites (Except.ok _)
    simp only [okWrites]
    have : strBytes (";height=" ++ pyStrOf PyVal.none) =
        strBytes ";height=None" := rfl
    rw [← this]
    simp

/-- C8, witness: the amended statement at a one-byte buffer. -/
theorem C8_witness :
    (∀ w ∈ okWrites (write_image [0] Option.none PyVal.none (PyVal.int 3)
        true false),
      ((strBytes ";width=").isPrefixOf w) = false) ∧
    strBytes ";height=None" ∈
      okWrites (write_image [0] Option.none (PyVal.int 4) PyVal.none true
        false) :=
  C8_default_width_omitted_height_emitted [0] Option.none (PyVal.int 4)
    (PyVal.int 3) true

/-! ## Claim C7 -/

/-- C7, counterexample.  With legacy width AND legacy height requested, a
sniffable 1x1 GIF buffer and a non-positive `pixels_per_line`, the
`assert pixels_per_line > 0` in the legacy height block fires before the
width check is reached, so the raised error is `AssertionError`, not the
legacy-width configuration error the claim promises for every input
combination. -/
theorem C7_counterexample :
    imgcat [71, 73, 70, 56, 57, 97, 1, 0, 1, 0] Option.none
        (PyVal.str "v0.5") (PyVal.str "v0.5") true 0 unknownFallback
        Option.none false = Except.error "AssertionError" ∧
    "AssertionError" ≠ "There is no legacy fallback for width" := by
  refine ⟨rfl, by decide⟩

/-- C7, amended.  `imgcat` on an empty buffer raises `Empty buffer` at
once, and `imgcat` with the legacy width specification `v0.5` always
raises before any byte is written (the model returns the writes only on
success, and every `fp.write` of the Python code happens inside the final
`_write_image` call): the error is the legacy-width configuration error
whenever `pixels_per_line` is positive; with a non-positive
`pixels_per_line` some fatal error is still always raised first (the
positivity assertion when legacy height resolution runs on a known nonzero
height). -/
theorem C7_fatal_errors :
    (∀ (filename : Option (List Nat)) (width height : PyVal)
       (preserve_aspect : Bool) (ppl : Int)
       (f : List Nat → Option Int × Option Int)
       (tty : Option (Int × Int)) (tm : Bool),
      imgcat [] filename width height preserve_aspect ppl f tty tm =
        Except.error "Empty buffer") ∧
    (∀ (buf : List Nat) (filename : Option (List Nat)) (height : PyVal)
       (preserve_aspect : Bool) (ppl : Int)
       (f : List Nat → Option Int × Option Int)
       (tty : Option (Int × Int)) (tm : Bool),
      buf ≠ [] → 0 < ppl →
      imgcat buf filename (PyVal.str "v0.5") height preserve_aspect ppl f
          tty tm =
        Except.error "There is no legacy fallback for width") ∧
    (∀ (buf : List Nat) (filename : Option (List Nat)) (height : PyVal)
       (preserve_aspect : Bool) (ppl : Int)
       (f : List Nat → Option Int × Option Int)
       (tty : Option (Int × Int)) (tm : Bool),
      buf ≠ [] →
      ∃ e, imgcat buf filename (PyVal.str "v0.5") height preserve_aspect
          ppl f tty tm = Except.error e) := by
  refine ⟨?_, ?_, ?_⟩
  · intro filename width height preserve_aspect ppl f tty tm
    rfl
  · intro buf filename height preserve_aspect ppl f tty tm hbuf hppl
    unfold imgcat
    rw [if_neg hbuf]
    by_cases hcond : (pyEq height (PyVal.str "v0.5") = true ∨
        pyEq height (PyVal.str "original") = true ∨
        pyEq (PyVal.str "v0.5") (PyVal.str "original") = true)
    · rw [if_pos hcond]
      obtain ⟨im, him⟩ := get_image_shape_never_errors f buf
      rw [him]
      simp only [Except.bind]
      by_cases hh : pyEq height (PyVal.str "v0.5") = true
      · rw [if_pos hh]
        obtain ⟨n, hn⟩ := legacy_height_ok im.2 ppl tty hppl
        rw [hn]
        rfl
      · rw [if_neg hh]
        by_cases ho : pyEq height (PyVal.str "original") = true
        · rw [if_pos ho]
          rfl
        · rw [if_neg ho]
          rfl
    · rw [if_neg hcond]
      rfl
  · intro buf filename height preserve_aspect ppl f tty tm hbuf
    unfold imgcat
    rw [if_neg hbuf]
    by_cases hcond : (pyEq height (PyVal.str "v0.5") = true ∨
        pyEq height (PyVal.str "original") = true ∨
        pyEq (PyVal.str "v0.5") (PyVal.str "original") = true)
    · rw [if_pos hcond]
      obtain ⟨im, him⟩ := get_image_shape_never_errors f buf
      rw [him]
      simp only [Except.bind]
      by_cases hh : pyEq height (PyVal.str "v0.5") = true
      · rw [if_pos hh]
        cases hlr : legacy_height im.2 ppl tty with
        | ok n => exact ⟨_, rfl⟩
        | error e => exact ⟨e, rfl⟩
      · rw [if_neg hh]
        by_cases ho : pyEq height (PyVal.str "original") = true
        · rw [if_pos ho]
          exact ⟨_, rfl⟩
        · rw [if_neg ho]
          exact ⟨_, rfl⟩
    · rw [if_neg hcond]
      exact ⟨_, rfl⟩

/-- C7, witness: concrete instances of the three amended parts. -/
theorem C7_witness :
    imgcat [] Option.none PyVal.none PyVal.none true 24 unknownFallback
        Option.none false = Except.error "Empty buffer" ∧
    imgcat [48] Option.none (PyVal.str "v0.5") (PyVal.str "10px") true 24
        unknownFallback Option.none false =
      Except.error "There is no legacy fallback for width" ∧
    ∃ e, imgcat [71, 73, 70, 56, 57, 97, 1, 0, 1, 0] Option.none
        (PyVal.str "v0.5") (PyVal.str "v0.5") true 0 unknownFallback
        Option.none false = Except.error e :=
  ⟨C7_fatal_errors.1 Option.none PyVal.none PyVal.none true 24
      unknownFallback Option.none false,
   C7_fatal_errors.2.1 [48] Option.none (PyVal.str "10px") true 24
      unknownFallback Option.none false (by decide) (by decide),
   C7_fatal_errors.2.2 [71, 73, 70, 56, 57, 97, 1, 0, 1, 0] Option.none
      (PyVal.str "v0.5") true 0 unknownFallback Option.none false
      (by decide)⟩

/-! ## Claim C4 -/

/-- C4, counterexample.  The kitty serializer in tmux mode, on a payload
containing embedded ESC bytes (`[97, 27, 27]`): unwrapping the wrapped
form (the repository's own `tmux_unwrap_passthrough`) does not reproduce
the inner sequence, and the wrapped form is not the passthrough markers
around a fully ESC-doubled inner sequence — the wrapper only escapes the
framing ESC bytes, not every ESC byte. -/
theorem C4_counterexample :
    tmux_unwrap_passthrough
        (serialize_gr_command [("a", "T")] [97, 27, 27] true) ≠
      Except.ok (serialize_gr_command [("a", "T")] [97, 27, 27] false) ∧
    serialize_gr_command [("a", "T")] [97, 27, 27] true ≠
      TMUX_WRAP_ST ++
        double_esc (serialize_gr_command [("a", "T")] [97, 27, 27] false) ++
        TMUX_WRAP_ED := by
  refine ⟨by decide, by decide⟩

/-- C4, amended.  The round trip does hold for every inner sequence whose
control data and payload contain no ESC byte — which is the case for all
sequences the encoders emit, their payloads being base64 text and their
control data ASCII `key=value` pairs: unwrapping the tmux-wrapped kitty
sequence (strip the passthrough markers, un-double ESC ESC) reproduces the
non-tmux serialization byte-for-byte.  The wrapper doubles only the two
framing ESC bytes (sequence introducer and terminator), which are the only
ESC bytes present in such sequences. -/
theorem C4_wrap_roundtrip_no_esc (cmd : List (String × String))
    (payload : List Nat) (hc : 27 ∉ gr_control cmd) (hp : 27 ∉ payload) :
    tmux_unwrap_passthrough (serialize_gr_command cmd payload true) =
      Except.ok (serialize_gr_command cmd payload false) := by
  have hsep27 : 27 ∉ (if payload ≠ [] then [59] ++ payload else []) := by
    split
    · simp [hp]
    · simp
  have hmid27 : 27 ∉ ([95, 71] ++
      (gr_control cmd ++ (if payload ≠ [] then [59] ++ payload else []))) := by
    simp only [List.mem_append, List.mem_cons]
    push_neg
    refine ⟨⟨by omega, by omega, by simp⟩, ?_, ?_⟩
    · exact fun hmem => absurd hmem hc
    · exact fun hmem => absurd hmem hsep27
  have hser_t : serialize_gr_command cmd payload true =
      (TMUX_WRAP_ST ++ ([27, 27] ++
        ([95, 71] ++ (gr_control cmd ++
          (if payload ≠ [] then [59] ++ payload else []))) ++
        [27, 27, 92])) ++ TMUX_WRAP_ED := by
    simp [serialize_gr_command, TMUX_WRAP_ST, TMUX_WRAP_ED,
      List.append_assoc]
  have hser_f : serialize_gr_command cmd payload false =
      27 :: (([95, 71] ++ (gr_control cmd ++
        (if payload ≠ [] then [59] ++ payload else []))) ++ [27, 92]) := by
    simp [serialize_gr_command, List.append_assoc]
  rw [hser_t]
  unfold tmux_unwrap_passthrough
  rw [findSubIdx_zero _ _ (by
        rw [List.append_assoc]
        exact isPrefixOf_self_append _ _),
      rfind_esc_end]
  dsimp only
  have htake : ((TMUX_WRAP_ST ++ ([27, 27] ++
        ([95, 71] ++ (gr_control cmd ++
          (if payload ≠ [] then [59] ++ payload else []))) ++
        [27, 27, 92])) ++ TMUX_WRAP_ED).take
      (TMUX_WRAP_ST ++ ([27, 27] ++
        ([95, 71] ++ (gr_control cmd ++
          (if payload ≠ [] then [59] ++ payload else []))) ++
        [27, 27, 92])).length =
      TMUX_WRAP_ST ++ ([27, 27] ++
        ([95, 71] ++ (gr_control cmd ++
          (if payload ≠ [] then [59] ++ payload else []))) ++
        [27, 27, 92]) := List.take_left _ _
  rw [htake]
  have hdrop : (TMUX_WRAP_ST ++ ([27, 27] ++
        ([95, 71] ++ (gr_control cmd ++
          (if payload ≠ [] then [59] ++ payload else []))) ++
        [27, 27, 92])).drop (0 + 7) =
      [27, 27] ++
        ([95, 71] ++ (gr_control cmd ++
          (if payload ≠ [] then [59] ++ payload else []))) ++
        [27, 27, 92] := by
    rw [show (0 + 7 : Nat) = TMUX_WRAP_ST.length from rfl]
    exact List.drop_left _ _
  rw [hdrop]
  have hrep : replace_esc_esc ([27, 27] ++
      ([95, 71] ++ (gr_control cmd ++
        (if payload ≠ [] then [59] ++ payload else []))) ++
      [27, 27, 92]) =
      27 :: (([95, 71] ++ (gr_control cmd ++
        (if payload ≠ [] then [59] ++ payload else []))) ++ [27, 92]) := by
    have hshape : [27, 27] ++
        ([95, 71] ++ (gr_control cmd ++
          (if payload ≠ [] then [59] ++ payload else []))) ++
        [27, 27, 92] =
        27 :: 27 :: (([95, 71] ++ (gr_control cmd ++
          (if payload ≠ [] then [59] ++ payload else []))) ++
          [27, 27, 92]) := by
      simp [List.append_assoc]
    rw [hshape, replace_esc_esc]
    rw [if_pos ⟨rfl, rfl⟩]
    rw [replace_esc_esc_no_esc _ _ hmid27]
    rfl
  rw [hrep, hser_f]

/-- C4, witness: round trip at the control data `a=T` and the ESC-free
payload `hi`. -/
theorem C4_witness :
    tmux_unwrap_passthrough
        (serialize_gr_command [("a", "T")] [104, 105] true) =
      Except.ok (serialize_gr_command [("a", "T")] [104, 105] false) :=
  C4_wrap_roundtrip_no_esc [("a", "T")] [104, 105] (by decide) (by decide)

end Imgcat
